import Mathlib

/-!
# Verification of the AI content generation and replenishment subsystem

Shallow embedding of the core of the storytelling backend: the output
parser (`parseGeneratedText` and the structured JSON tier), the provider
gateway (`generateWithOpenAI`, `textToElevenlabsAudio`), the replenishment
engine (`generateCategoryStories`) and the consumption hooks of the story
completion routes.

Modelling conventions:
* The document store is a `List Story`; `Story.create` appends a record.
* JavaScript numbers are modelled as `Int` (all values arising in this
  subsystem are integral); JSON number literals are truncated toward zero
  to their integral value at parse time.
* External I/O (the OpenAI call, the ElevenLabs calls, per-candidate
  persistence failures) is supplied by oracles quantified over in the
  theorems, so every behaviour of the environment is covered.
* The store may be mutated by concurrent callers between the first count
  and the re-check that the engine performs right before saving; the
  embedding therefore takes two snapshots `s0` (at the first count) and
  `s1` (at the re-check / at return for earlier exits).
-/

namespace AppBackend

/-! ## JavaScript value model (for `JSON.parse` results) -/

mutual

inductive JsVal where
  | null : JsVal
  | bool (b : Bool) : JsVal
  | num (n : Int) : JsVal
  | str (s : String) : JsVal
  | arr (xs : JsArr) : JsVal
  | obj (fs : JsObjFields) : JsVal

inductive JsArr where
  | nil : JsArr
  | cons (v : JsVal) (rest : JsArr) : JsArr

inductive JsObjFields where
  | nil : JsObjFields
  | cons (k : String) (v : JsVal) (rest : JsObjFields) : JsObjFields

end

def JsArr.toList : JsArr → List JsVal
  | .nil => []
  | .cons v r => v :: r.toList

/-- JavaScript property read, last assignment wins (as for duplicate JSON
keys under `JSON.parse`). -/
def JsObjFields.get? : JsObjFields → String → Option JsVal
  | .nil, _ => none
  | .cons k v rest, key =>
    match rest.get? key with
    | some v' => some v'
    | none => if k = key then some v else none

/-- `obj.field` access: `undefined` (`none`) on non-objects. -/
def getField : JsVal → String → Option JsVal
  | .obj fs, k => fs.get? k
  | _, _ => none

/-- JavaScript truthiness of a value (NaN does not arise in this model). -/
def JsVal.truthy : JsVal → Bool
  | .null => false
  | .bool b => b
  | .num n => n != 0
  | .str s => s != ""
  | .arr _ => true
  | .obj _ => true

/-- Truthiness of a possibly-`undefined` property. -/
def truthyOpt : Option JsVal → Bool
  | none => false
  | some v => v.truthy

mutual

/-- JavaScript `String(v)` coercion. -/
def jsToString : JsVal → String
  | .null => "null"
  | .bool true => "true"
  | .bool false => "false"
  | .num n => toString n
  | .str s => s
  | .arr xs => jsArrToString xs
  | .obj _ => "[object Object]"

/-- `Array.prototype.toString`: elements joined by commas. -/
def jsArrToString : JsArr → String
  | .nil => ""
  | .cons v .nil => jsToString v
  | .cons v rest => jsToString v ++ "," ++ jsArrToString rest

end

/-! ## A JSON parser (the behaviour of `JSON.parse` on the inputs the
engine feeds it).  Fuel-based recursive descent; the fuel is instantiated
large enough that it can never be exhausted on the given input. -/

def jsonWs (c : Char) : Bool := c = ' ' || c = '\t' || c = '\n' || c = '\r'

def skipJWs (cs : List Char) : List Char := cs.dropWhile jsonWs

def hexVal? (c : Char) : Option Nat :=
  if '0' ≤ c ∧ c ≤ '9' then some (c.toNat - 48)
  else if 'a' ≤ c ∧ c ≤ 'f' then some (c.toNat - 87)
  else if 'A' ≤ c ∧ c ≤ 'F' then some (c.toNat - 55)
  else none

/-- Body of a JSON string literal (after the opening quote): returns the
decoded characters and the remaining input after the closing quote. -/
def parseJStrGo (acc : List Char) : List Char → Option (List Char × List Char)
  | [] => none
  | c :: cs =>
    if c = '"' then some (acc.reverse, cs)
    else if c = '\\' then
      match cs with
      | [] => none
      | e :: cs2 =>
        if e = '"' then parseJStrGo ('"' :: acc) cs2
        else if e = '\\' then parseJStrGo ('\\' :: acc) cs2
        else if e = '/' then parseJStrGo ('/' :: acc) cs2
        else if e = 'b' then parseJStrGo (Char.ofNat 8 :: acc) cs2
        else if e = 'f' then parseJStrGo (Char.ofNat 12 :: acc) cs2
        else if e = 'n' then parseJStrGo ('\n' :: acc) cs2
        else if e = 'r' then parseJStrGo ('\r' :: acc) cs2
        else if e = 't' then parseJStrGo ('\t' :: acc) cs2
        else if e = 'u' then
          match cs2 with
          | h1 :: h2 :: h3 :: h4 :: cs3 =>
            match hexVal? h1, hexVal? h2, hexVal? h3, hexVal? h4 with
            | some a, some b, some c', some d =>
              parseJStrGo (Char.ofNat (((a * 16 + b) * 16 + c') * 16 + d) :: acc) cs3
            | _, _, _, _ => none
          | _ => none
        else none
    else if c.toNat < 32 then none
    else parseJStrGo (c :: acc) cs

def digitsToNat (ds : List Char) : Nat :=
  ds.foldl (fun a c => a * 10 + (c.toNat - 48)) 0

/-- Value of a parsed JSON number, truncated toward zero to an integer
(JavaScript floats are modelled integrally; the durations this subsystem
reads are specified as integers). -/
def jNumValue (neg : Bool) (intDigits fracDigits : List Char) (ex : Int) : Int :=
  let mantissa : Int := (digitsToNat (intDigits ++ fracDigits) : Int)
  let effExp : Int := ex - (fracDigits.length : Int)
  let magnitude : Int :=
    if 0 ≤ effExp then mantissa * (10 : Int) ^ effExp.toNat
    else Int.tdiv mantissa ((10 : Int) ^ (-effExp).toNat)
  if neg then -magnitude else magnitude

/-- Optional exponent part of a JSON number literal, then final value. -/
def parseJNumExp (neg : Bool) (intDigits fracDigits : List Char) (cs3 : List Char) :
    Option (Int × List Char) :=
  match cs3 with
  | e :: rest =>
    if e = 'e' ∨ e = 'E' then
      let (esign, rest2) := match rest with
        | '-' :: r => ((-1 : Int), r)
        | '+' :: r => ((1 : Int), r)
        | _ => ((1 : Int), rest)
      let eds := rest2.takeWhile Char.isDigit
      if eds.isEmpty then none
      else some (jNumValue neg intDigits fracDigits (esign * (digitsToNat eds : Int)),
                 rest2.dropWhile Char.isDigit)
    else some (jNumValue neg intDigits fracDigits 0, cs3)
  | [] => some (jNumValue neg intDigits fracDigits 0, cs3)

/-- JSON number literal. -/
def parseJNum (cs : List Char) : Option (Int × List Char) :=
  let (neg, cs1) := match cs with
    | '-' :: rest => (true, rest)
    | _ => (false, cs)
  let intDigits := cs1.takeWhile Char.isDigit
  let cs2 := cs1.dropWhile Char.isDigit
  if intDigits.isEmpty then none
  else
    match cs2 with
    | '.' :: rest =>
      let fds := rest.takeWhile Char.isDigit
      if fds.isEmpty then none
      else parseJNumExp neg intDigits fds (rest.dropWhile Char.isDigit)
    | _ => parseJNumExp neg intDigits [] cs2

mutual

def parseJVal : Nat → List Char → Option (JsVal × List Char)
  | 0, _ => none
  | fuel + 1, cs =>
    match skipJWs cs with
    | [] => none
    | c :: rest =>
      if c = 'n' then
        match rest with
        | 'u' :: 'l' :: 'l' :: rest2 => some (.null, rest2)
        | _ => none
      else if c = 't' then
        match rest with
        | 'r' :: 'u' :: 'e' :: rest2 => some (.bool true, rest2)
        | _ => none
      else if c = 'f' then
        match rest with
        | 'a' :: 'l' :: 's' :: 'e' :: rest2 => some (.bool false, rest2)
        | _ => none
      else if c = '"' then
        match parseJStrGo [] rest with
        | some (chars, rest2) => some (.str (String.mk chars), rest2)
        | none => none
      else if c = '[' then
        match skipJWs rest with
        | ']' :: rest2 => some (.arr .nil, rest2)
        | rest2 =>
          match parseJArrElems fuel rest2 with
          | some (xs, rest3) => some (.arr xs, rest3)
          | none => none
      else if c = '{' then
        match skipJWs rest with
        | '}' :: rest2 => some (.obj .nil, rest2)
        | rest2 =>
          match parseJObjFields fuel rest2 with
          | some (fs, rest3) => some (.obj fs, rest3)
          | none => none
      else
        match parseJNum (c :: rest) with
        | some (n, rest2) => some (.num n, rest2)
        | none => none

def parseJArrElems : Nat → List Char → Option (JsArr × List Char)
  | 0, _ => none
  | fuel + 1, cs =>
    match parseJVal fuel cs with
    | none => none
    | some (v, rest) =>
      match skipJWs rest with
      | ',' :: rest2 =>
        match parseJArrElems fuel rest2 with
        | some (vs, rest3) => some (.cons v vs, rest3)
        | none => none
      | ']' :: rest2 => some (.cons v .nil, rest2)
      | _ => none

def parseJObjFields : Nat → List Char → Option (JsObjFields × List Char)
  | 0, _ => none
  | fuel + 1, cs =>
    match skipJWs cs with
    | '"' :: rest =>
      match parseJStrGo [] rest with
      | none => none
      | some (kcs, rest2) =>
        match skipJWs rest2 with
        | ':' :: rest3 =>
          match parseJVal fuel rest3 with
          | none => none
          | some (v, rest4) =>
            match skipJWs rest4 with
            | ',' :: rest5 =>
              match parseJObjFields fuel rest5 with
              | some (fs, rest6) => some (.cons (String.mk kcs) v fs, rest6)
              | none => none
            | '}' :: rest5 => some (.cons (String.mk kcs) v .nil, rest5)
            | _ => none
        | _ => none
    | _ => none

end

/-- `JSON.parse`: whole-input parse, trailing garbage rejected. -/
def jsonParse (s : String) : Option JsVal :=
  let cs := s.data
  match parseJVal (cs.length + 2) cs with
  | some (v, rest) => if (skipJWs rest).isEmpty then some v else none
  | none => none

/-! ## String primitives
(re-implemented over `List Char` by structural recursion, mirroring the
semantics of the JavaScript string methods the source uses). -/

/-- `String.prototype.trim` (over the whitespace classes that arise
here). -/
def trimChars (cs : List Char) : List Char :=
  ((cs.dropWhile Char.isWhitespace).reverse.dropWhile Char.isWhitespace).reverse

def strTrim (s : String) : String := String.mk (trimChars s.data)

/-- `String.prototype.substring(0, n)`. -/
def strTake (s : String) (n : Nat) : String := String.mk (s.data.take n)

/-- `String.prototype.split(sep)` for a non-empty plain-string separator:
cut at each left-to-right non-overlapping occurrence.  The fuel is
instantiated so that it cannot run out. -/
def splitOnAuxC (sep : List Char) : Nat → List Char → List Char → List (List Char)
  | _, [], acc => [acc.reverse]
  | 0, cs, acc => [acc.reverse ++ cs]
  | fuel + 1, c :: cs, acc =>
    if sep.isPrefixOf (c :: cs) then
      acc.reverse :: splitOnAuxC sep fuel (List.drop sep.length (c :: cs)) []
    else splitOnAuxC sep fuel cs (c :: acc)

def strSplitOn (s sep : String) : List String :=
  if sep.data.isEmpty then [s]
  else (splitOnAuxC sep.data (s.data.length + 1) s.data []).map String.mk

/-- `Array.prototype.join(sep)`. -/
def joinSep (sep : String) : List String → String
  | [] => ""
  | [x] => x
  | x :: xs => x ++ sep ++ joinSep sep xs

/-! ## Generation candidates and the fallback line parser
(`parseGeneratedText`, routes/ai.js lines 182-218). -/

structure Candidate where
  title : String
  description : String
  content : String
  duration : Int
  ageMin : Int
  ageMax : Int
deriving DecidableEq, Repr, Inhabited

/-- `/^[\d\.\)\s]+/`: characters stripped from the front of a title. -/
def isLeadStrip (c : Char) : Bool := c.isDigit || c = '.' || c = ')' || c.isWhitespace

def stripLeadNum (s : String) : String := String.mk (s.data.dropWhile isLeadStrip)

/-- Does `cs` start with (case-insensitive) `min` after optional
whitespace?  Matches the `\s*min` tail of the duration regex. -/
def minFollows (cs : List Char) : Bool :=
  match cs.dropWhile Char.isWhitespace with
  | m :: i :: n :: _ =>
    (m = 'm' || m = 'M') && (i = 'i' || i = 'I') && (n = 'n' || n = 'N')
  | _ => false

/-- `line.match(/(\d{1,2})\s*min/i)`: leftmost match, two digits
preferred at each start position (a failed two-digit attempt cannot be
rescued by a one-digit attempt at the same position, since the next
character is then a digit and cannot start `\s*min`). -/
def findDurGo : List Char → Option Nat
  | [] => none
  | c :: rest =>
    if c.isDigit then
      match rest with
      | d :: rest2 =>
        if d.isDigit then
          if minFollows rest2 then some (10 * (c.toNat - 48) + (d.toNat - 48))
          else findDurGo rest
        else if minFollows rest then some (c.toNat - 48)
        else findDurGo rest
      | [] => none
    else findDurGo rest

def findDur (s : String) : Option Nat := findDurGo s.data

/-- Does `cs` match `[-—–:]\s*\d+\s*min\.?` exactly to its end? -/
def tailPatSuffix : List Char → Bool
  | [] => false
  | c :: rest =>
    (c = '-' || c = '—' || c = '–' || c = ':') &&
      (let r1 := rest.dropWhile Char.isWhitespace
       let ds := r1.takeWhile Char.isDigit
       let r2 := r1.dropWhile Char.isDigit
       (!ds.isEmpty) &&
         (match r2.dropWhile Char.isWhitespace with
          | m :: i :: n :: r4 =>
            (m = 'm' || m = 'M') && (i = 'i' || i = 'I') && (n = 'n' || n = 'N') &&
              (r4.isEmpty || r4 = ['.'])
          | _ => false))

/-- `.replace(/[-—–:]\s*\d+\s*min\.?$/i, '')`: remove the leftmost
end-anchored match, if any. -/
def stripTailGo : List Char → List Char
  | [] => []
  | c :: rest => if tailPatSuffix (c :: rest) then [] else c :: stripTailGo rest

def stripTailPat (s : String) : String := String.mk (stripTailGo s.data)

/-- The separator cascade of `parseGeneratedText`: re-split while fewer
than 3 segments were obtained; `none` when every separator fails. -/
def chooseParts (l : String) : Option (List String) :=
  let p1 := strSplitOn l " - "
  let p2 := if p1.length < 3 then strSplitOn l " — " else p1
  let p3 := if p2.length < 3 then strSplitOn l " – " else p2
  let p4 := if p3.length < 3 then strSplitOn l ":" else p3
  let p5 := if p4.length < 3 then strSplitOn l " | " else p4
  if p5.length < 3 then none else some p5

/-- One accepted line turned into a candidate (`k` = number of candidates
parsed so far, used for the default title). -/
def mkLineCandidate (childName : String) (childAge : Int) (l : String)
    (parts : List String) (k : Nat) : Candidate :=
  let rawTitle := parts.headD ""
  let title0 := if rawTitle = "" then "Story " ++ toString (k + 1) else rawTitle
  let title1 := strTake (strTrim (stripLeadNum title0)) 100
  let rawDesc := (parts.drop 1).headD ""
  let desc0 := if rawDesc = "" then "A wonderful story for " ++ childName ++ "." else rawDesc
  let desc1 := strTake desc0 500
  let storyText := strTrim (joinSep " - " (parts.drop 2))
  let duration : Int := match findDur l with
    | some d => min 20 (max 5 (d : Int))
    | none => 8
  { title := strTrim (stripTailPat title1)
    description := strTrim (stripTailPat desc1)
    content :=
      if storyText = "" then "Once upon a time, " ++ childName ++ " discovered something magical..."
      else storyText
    duration := duration
    ageMin := max 2 (childAge - 2)
    ageMax := min 12 (childAge + 2) }

/-- The line loop of `parseGeneratedText` (stops once `count` candidates
are accepted; lines with fewer than 3 segments are skipped). -/
def parseLines (childName : String) (childAge : Int) (count : Nat) :
    List String → List Candidate → List Candidate
  | [], acc => acc
  | l :: ls, acc =>
    if count ≤ acc.length then acc
    else
      match chooseParts l with
      | none => parseLines childName childAge count ls acc
      | some parts =>
        parseLines childName childAge count ls
          (acc ++ [mkLineCandidate childName childAge l parts acc.length])

/-- `parseGeneratedText(text, childName, childAge, count)`. -/
def parseGeneratedText (text childName : String) (childAge : Int) (count : Nat) :
    List Candidate :=
  let lines := ((strSplitOn text "\n").map strTrim).filter (fun s => s != "")
  (parseLines childName childAge count lines []).take count

/-! ## Structured (JSON) parsing tier
(inlined in `generateCategoryStories`, routes/ai.js lines 261-293). -/

/-- `parseInt(s, 10)`: leading whitespace skipped, optional sign, leading
decimal digits; `none` models `NaN`. -/
def jsParseIntDigits (cs : List Char) : Option Int :=
  let ds := cs.takeWhile Char.isDigit
  if ds.isEmpty then none else some (digitsToNat ds : Int)

def jsParseInt (s : String) : Option Int :=
  match s.data.dropWhile Char.isWhitespace with
  | '-' :: rest => (jsParseIntDigits rest).map (fun n => -n)
  | '+' :: rest => jsParseIntDigits rest
  | cs => jsParseIntDigits cs

/-- `Math.min(20, Math.max(5, parseInt(obj.duration || 8, 10) || 8))`. -/
def jsDuration (d : Option JsVal) : Int :=
  let base : Option Int :=
    if truthyOpt d then jsParseInt (jsToString (d.getD .null)) else some 8
  let v : Int := match base with
    | some n => if n = 0 then 8 else n
    | none => 8
  min 20 (max 5 v)

/-- Candidate built from one accepted JSON object. -/
def mkStructCand (childAge : Int) (v : JsVal) : Candidate :=
  { title := strTake (strTrim (jsToString ((getField v "title").getD .null))) 100
    description :=
      strTake (strTrim
        (if truthyOpt (getField v "description")
         then jsToString ((getField v "description").getD .null) else "")) 500
    content := strTrim (jsToString ((getField v "content").getD .null))
    duration := jsDuration (getField v "duration")
    ageMin := max 2 (childAge - 2)
    ageMax := min 12 (childAge + 2) }

/-- The `for (const obj of arr)` accept loop: objects without a truthy
`title` and `content` are skipped; the loop breaks once `need` candidates
have been pushed (the break test runs after a push). -/
def acceptStructured (childAge : Int) (need : Nat) :
    List JsVal → List Candidate → List Candidate
  | [], acc => acc
  | v :: vs, acc =>
    if v.truthy && truthyOpt (getField v "title") && truthyOpt (getField v "content") then
      let acc' := acc ++ [mkStructCand childAge v]
      if need ≤ acc'.length then acc' else acceptStructured childAge need vs acc'
    else acceptStructured childAge need vs acc

/-- Scan for the first `[` and last `]` and `JSON.parse` the enclosed
span; `none` on any failure (missing brackets, unparseable span, or a
parse result that is not an array). -/
def extractJsonArray (s : String) : Option (List JsVal) :=
  let cs := trimChars s.data
  match List.findIdx? (fun c => c = '[') cs,
        (List.findIdx? (fun c => c = ']') cs.reverse).map (fun j => cs.length - 1 - j) with
  | some fb, some lb =>
    if fb < lb then
      match jsonParse (String.mk ((cs.drop fb).take (lb + 1 - fb))) with
      | some (.arr xs) => some xs.toList
      | _ => none
    else none
  | _, _ => none

/-- The two-tier candidate extraction of `generateCategoryStories`
(structured tier first; the legacy line parser when the structured tier
yields nothing and the text is non-empty). -/
def buildCandidates (aiText childName : String) (childAge : Int) (need : Nat) :
    List Candidate :=
  let structured :=
    if aiText != "" then
      match extractJsonArray aiText with
      | some arr => acceptStructured childAge need arr []
      | none => []
    else []
  if structured != [] then structured
  else if aiText != "" then (parseGeneratedText aiText childName childAge need).take need
  else []

/-! ## Story records and the document store. -/

structure AgeRange where
  min : Int
  max : Int
deriving DecidableEq, Repr

structure Story where
  title : String
  description : String
  content : String
  duration : Int
  ageRange : Option AgeRange
  theme : String
  category : String
  isAIGenerated : Bool
  isActive : Bool
  generatedForCollection : Option String
  thumbnail : String
  audioUrl : Option String
  audioPending : Bool
  totalPlays : Nat
  completions : Nat
deriving DecidableEq, Repr

/-- The persisted story collection; `Story.create` appends. -/
abbrev Store := List Story

/-- `Story.countDocuments({generatedForCollection, isActive, isAIGenerated})`:
the active AI-generated records of a collection. -/
def countActive (key : String) (s : Store) : Nat :=
  (s.filter (fun r =>
    r.generatedForCollection = some key && r.isActive && r.isAIGenerated)).length

/-! ## Provider gateway (routes/ai.js lines 69-149). -/

/-- One element of `res.data?.choices`; `content` is
`choice?.message?.content` (`none` when the message or content is
missing). -/
structure OpenAIChoice where
  content : Option String
deriving DecidableEq, Repr

/-- `generateWithOpenAI`: empty string when the key is missing, on any
transport error, and on a malformed/empty response; otherwise
`choice?.message?.content || ''`. -/
def generateWithOpenAI (hasKey : Bool) (outcome : Except Unit (List OpenAIChoice)) : String :=
  if !hasKey then ""
  else
    match outcome with
    | .error _ => ""
    | .ok choices =>
      match choices.head? with
      | none => ""
      | some choice =>
        match choice.content with
        | some t => t
        | none => ""

/-- Environment of one `textToElevenlabsAudio` call.  `ttsOutcome v`
bundles the synthesis request for voice `v` together with saving the
returned buffer and producing its URL (both run inside the same
`try`). Each voice-list candidate is represented by its extracted id
(`voice_id || id || voiceId || uuid`), `none` when absent. -/
structure TtsEnv where
  hasKey : Bool
  configuredVoice : Option String
  ttsOutcome : String → Except Unit String
  voicesOutcome : Except Unit (List (Option String))

/-- The fallback path of `textToElevenlabsAudio`: list voices, take the
first, synthesize with it, caching the chosen voice id on success.
Returns the result and the (possibly updated) configured voice. -/
def ttsFallback (env : TtsEnv) : Option String × Option String :=
  match env.voicesOutcome with
  | .error _ => (none, env.configuredVoice)
  | .ok cands =>
    match cands.head? with
    | none => (none, env.configuredVoice)
    | some extractedId =>
      match extractedId with
      | none => (none, env.configuredVoice)
      | some vid =>
        if vid = "" then (none, env.configuredVoice)
        else
          match env.ttsOutcome vid with
          | .ok url => (some url, some vid)
          | .error _ => (none, env.configuredVoice)

/-- `textToElevenlabsAudio`: `none` without a key; the configured voice is
tried first, any failure falling through to the fallback path. -/
def textToElevenlabsAudio (env : TtsEnv) : Option String × Option String :=
  if !env.hasKey then (none, env.configuredVoice)
  else
    match env.configuredVoice with
    | some v =>
      match env.ttsOutcome v with
      | .ok url => (some url, env.configuredVoice)
      | .error _ => ttsFallback env
    | none => ttsFallback env

/-! ## Collection registry (`STORY_CATEGORIES`). -/

structure CategoryInfo where
  label : String
  icon : String
  prompt : String
  theme : String
  category : String
deriving DecidableEq, Repr

def STORY_CATEGORIES : String → Option CategoryInfo := fun key =>
  if key = "mom-stories" then
    some { label := "Stories from Mom", icon := "👩"
           prompt := "Generate warm, nurturing stories told from a mother's perspective. Focus on bedtime comfort, gentle life lessons, and family love."
           theme := "family", category := "audio" }
  else if key = "grandma-stories" then
    some { label := "Stories from Grandma", icon := "👵"
           prompt := "Generate wise, nostalgic stories told from a grandmother's perspective. Include timeless wisdom, traditions, and gentle humor."
           theme := "family", category := "audio" }
  else if key = "now-stories" then
    some { label := "Perfect Right Now", icon := "⭐"
           prompt := "Generate engaging, age-appropriate stories perfect for the current moment. Include adventure, excitement, and positive energy."
           theme := "adventure", category := "interactive" }
  else if key = "learn-stories" then
    some { label := "Learning Adventures", icon := "🎓"
           prompt := "Generate educational stories that teach concepts through adventure. Focus on science, nature, problem-solving, and curiosity."
           theme := "learning", category := "educational" }
  else none

/-! ## Replenishment engine (`generateCategoryStories`,
routes/ai.js lines 226-388). -/

/-- Presence of provider credentials and of the request object that the
audio path needs. -/
structure GenConfig where
  openaiKey : Bool
  elevenKey : Bool
  hasReq : Bool

/-- Environment oracle for one `generateCategoryStories` call:
the OpenAI response, the ElevenLabs environment of the synthesis attempt
for loop index `i`, and whether `Story.create` throws at loop index `i`. -/
structure GenOracle where
  genOutcome : Except Unit (List OpenAIChoice)
  ttsEnv : Nat → TtsEnv
  createFails : Nat → Bool

/-- The record assembled in the save loop before the audio fields are
decided (`storyData`, lines 318-331). -/
def mkStoryData (cat : CategoryInfo) (key : String) (c : Candidate) : Story :=
  { title := c.title
    description := c.description
    content := c.content
    duration := c.duration
    ageRange := some ⟨c.ageMin, c.ageMax⟩
    theme := cat.theme
    category := cat.category
    isAIGenerated := true
    isActive := true
    generatedForCollection := some key
    thumbnail := cat.icon
    audioUrl := none
    audioPending := false
    totalPlays := 0
    completions := 0 }

/-- Audio decision for one candidate: reuse an existing non-empty
`audioUrl` from any record with the same title or content; otherwise
synthesize when configured (third component counts synthesis calls);
otherwise leave pending iff a key is configured.  Mirrors lines 347-370. -/
def audioDecision (cfg : GenConfig) (orc : GenOracle) (i : Nat) (s : Store)
    (sd : Story) : Option String × Bool × Nat :=
  let synthBranch : Option String × Bool × Nat :=
    if cfg.elevenKey && cfg.hasReq then
      match (textToElevenlabsAudio (orc.ttsEnv i)).1 with
      | some url => (some url, false, 1)
      | none => (none, true, 1)
    else (none, cfg.elevenKey, 0)
  match s.find? (fun r =>
      (r.title = sd.title || r.content = sd.content) && r.audioUrl.isSome) with
  | some r => if (r.audioUrl.getD "") != "" then (r.audioUrl, false, 0) else synthBranch
  | none => synthBranch

/-- The save loop (lines 314-385): per candidate, skip active same-title
duplicates in the collection, decide audio, then `Story.create`; a
persistence failure skips only that candidate. -/
def saveLoop (cfg : GenConfig) (orc : GenOracle) (cat : CategoryInfo) (key : String) :
    List Candidate → Nat → Store → List Story → Nat → Store × List Story × Nat
  | [], _, s, saved, tts => (s, saved, tts)
  | c :: cs, i, s, saved, tts =>
    let sd := mkStoryData cat key c
    if s.any (fun r =>
        r.title = sd.title && r.generatedForCollection = some key && r.isActive) then
      saveLoop cfg orc cat key cs (i + 1) s saved tts
    else
      let (au, ap, ttsInc) := audioDecision cfg orc i s sd
      if orc.createFails i then
        saveLoop cfg orc cat key cs (i + 1) s saved (tts + ttsInc)
      else
        let doc := { sd with audioUrl := au, audioPending := ap }
        saveLoop cfg orc cat key cs (i + 1) (s ++ [doc]) (saved ++ [doc]) (tts + ttsInc)

/-- Result of one `generateCategoryStories` call: the returned documents,
the store after the call's own writes, whether the text-generation
provider was invoked, and how many synthesis calls were made. -/
structure GenOut where
  saved : List Story
  store : Store
  calledGen : Bool
  ttsCalls : Nat
deriving DecidableEq, Repr

/-- `generateCategoryStories(categoryKey, childName, childAge,
targetTotal)`.  `s0` is the store snapshot read by the first count, `s1`
the snapshot read by the re-check immediately before saving (the ambient
store at return, for paths that exit earlier); concurrent callers may
have changed the store in between.  Throws (`Except.error`) only on an
unknown collection key. -/
def generateCategoryStories (cfg : GenConfig) (orc : GenOracle)
    (categoryKey childName : String) (childAge : Int) (targetTotal : Int)
    (s0 s1 : Store) : Except String GenOut :=
  match STORY_CATEGORIES categoryKey with
  | none => .error "Invalid categoryKey"
  | some category =>
    let existingCount : Int := countActive categoryKey s0
    let need : Int := max 0 (targetTotal - existingCount)
    if need ≤ 0 then .ok ⟨[], s1, false, 0⟩
    else
      let aiText := if cfg.openaiKey then generateWithOpenAI cfg.openaiKey orc.genOutcome else ""
      let candidates := buildCandidates aiText childName childAge need.toNat
      if candidates.isEmpty then .ok ⟨[], s1, cfg.openaiKey, 0⟩
      else
        let latestCount : Int := countActive categoryKey s1
        let remainingNeed : Int := max 0 (targetTotal - latestCount)
        if remainingNeed ≤ 0 then .ok ⟨[], s1, cfg.openaiKey, 0⟩
        else
          let toSave := candidates.take remainingNeed.toNat
          let (s', saved, tts) := saveLoop cfg orc category categoryKey toSave 0 s1 [] 0
          .ok ⟨saved, s', cfg.openaiKey, tts⟩

/-! ## Consumption hooks. -/

/-- A scheduled fire-and-forget replenishment
(`generateCategoryStories(collection, name, age, 1)` submitted without
awaiting it). -/
structure Scheduled where
  collectionKey : String
  name : String
  age : Int
  target : Nat
deriving DecidableEq, Repr

/-- Truthiness of the nullable `generatedForCollection` string field. -/
def collTruthy : Option String → Bool
  | none => false
  | some s => s != ""

/-- `POST /:id/complete` (routes/stories.js lines 146-182), the part
acting on a found, active story: the completion counter is incremented
and saved; an AI-generated record with a truthy collection is then
deactivated and a single replacement generation is scheduled, the derived
age being the stored age-range minimum clamped to at least 3 (5 when no
age range is stored; `ageRange.min` is integral in this model, so the
`Number.isInteger` guard always passes when the range exists). -/
def completeStoryHook (story : Story) : Story × Option Scheduled :=
  let s1 := { story with completions := story.completions + 1 }
  if s1.isAIGenerated && collTruthy s1.generatedForCollection then
    let s2 := { s1 with isActive := false }
    let derivedAge : Int := match s2.ageRange with
      | some r => max 3 r.min
      | none => 5
    (s2, some ⟨s2.generatedForCollection.getD "", "friend", derivedAge, 1⟩)
  else (s1, none)

/-- Outcome of the story branch of `POST /:childId/complete/:contentId`:
the record is either hard-deleted or saved back. -/
inductive StoryWrite where
  | removed : StoryWrite
  | savedDoc (s : Story) : StoryWrite
deriving DecidableEq, Repr

/-- `POST /:childId/complete/:contentId` (routes/parent child routes,
lines 784-807), story branch: an AI record with a truthy collection is
deleted and a single replacement generation is scheduled with the child's
name and age (`|| 'friend'` / `|| 5` for falsy values); otherwise the
incremented completion counter is persisted and nothing is scheduled. -/
def childCompleteStoryHook (childName : Option String) (childAgeField : Option Int)
    (story : Story) : StoryWrite × Option Scheduled :=
  let s1 := { story with completions := story.completions + 1 }
  if s1.isAIGenerated && collTruthy s1.generatedForCollection then
    let name := match childName with
      | some n => if n = "" then "friend" else n
      | none => "friend"
    let age : Int := match childAgeField with
      | some a => if a = 0 then 5 else a
      | none => 5
    (.removed, some ⟨s1.generatedForCollection.getD "", name, age, 1⟩)
  else (.savedDoc s1, none)

/-! ## Parser lemmas. -/

theorem acceptStructured_length (age : Int) (need : Nat) :
    ∀ (arr : List JsVal) (acc : List Candidate), acc.length < need →
      (acceptStructured age need arr acc).length ≤ need := by
  intro arr
  induction arr with
  | nil => intro acc hacc; simpa [acceptStructured] using Nat.le_of_lt hacc
  | cons v vs ih =>
    intro acc hacc
    simp only [acceptStructured]
    split
    · split
      · simpa using Nat.succ_le_of_lt hacc
      · rename_i hfull
        exact ih _ (by simpa using Nat.lt_of_not_le hfull)
    · exact ih acc hacc

theorem parseGeneratedText_length (text name : String) (age : Int) (n : Nat) :
    (parseGeneratedText text name age n).length ≤ n := by
  simp [parseGeneratedText]

theorem buildCandidates_length (text name : String) (age : Int) (n : Nat)
    (h : 1 ≤ n) : (buildCandidates text name age n).length ≤ n := by
  by_cases htext : (text != "") = true
  · cases hex : extractJsonArray text with
    | none =>
      simp only [buildCandidates, htext, hex, if_true]
      simp
    | some arr =>
      simp only [buildCandidates, htext, hex, if_true]
      by_cases hne : (acceptStructured age n arr [] != []) = true
      · simpa [hne] using acceptStructured_length age n arr [] h
      · simp [hne]
  · simp [buildCandidates, htext]

/-- Every candidate accumulated by the line loop satisfies `P` when the
incoming accumulator does and every constructed candidate does. -/
theorem parseLines_forall (P : Candidate → Prop) (name : String) (age : Int) (cnt : Nat)
    (hmk : ∀ l parts k, P (mkLineCandidate name age l parts k)) :
    ∀ (lines : List String) (acc : List Candidate), (∀ c ∈ acc, P c) →
      ∀ c ∈ parseLines name age cnt lines acc, P c := by
  intro lines
  induction lines with
  | nil => intro acc hacc c hc; exact hacc c (by simpa [parseLines] using hc)
  | cons l ls ih =>
    intro acc hacc c hc
    simp only [parseLines] at hc
    by_cases hlen : cnt ≤ acc.length
    · exact hacc c (by simpa [hlen] using hc)
    · rw [if_neg hlen] at hc
      cases hcp : chooseParts l with
      | none => exact ih acc hacc c (by rwa [hcp] at hc)
      | some parts =>
        rw [hcp] at hc
        refine ih _ ?_ c hc
        intro d hd
        rcases List.mem_append.mp hd with h | h
        · exact hacc d h
        · rcases List.mem_singleton.mp h with rfl
          exact hmk _ _ _

theorem parseGeneratedText_forall (P : Candidate → Prop) (text name : String)
    (age : Int) (cnt : Nat) (hmk : ∀ l parts k, P (mkLineCandidate name age l parts k)) :
    ∀ c ∈ parseGeneratedText text name age cnt, P c := by
  intro c hc
  have hc' : c ∈ parseLines name age cnt
      (((strSplitOn text "\n").map strTrim).filter (fun s => s != "")) [] :=
    (List.take_sublist _ _).mem hc
  exact parseLines_forall P name age cnt hmk _ [] (by simp) c hc'

/-- Every candidate accumulated by the structured accept loop is either
from the incoming accumulator or built from an array element with truthy
`title` and `content`. -/
theorem acceptStructured_forall (age : Int) (need : Nat) :
    ∀ (arr : List JsVal) (acc : List Candidate), ∀ c ∈ acceptStructured age need arr acc,
      c ∈ acc ∨ ∃ v ∈ arr, v.truthy = true ∧ truthyOpt (getField v "title") = true ∧
        truthyOpt (getField v "content") = true ∧ c = mkStructCand age v := by
  intro arr
  induction arr with
  | nil => intro acc c hc; exact Or.inl (by simpa [acceptStructured] using hc)
  | cons v vs ih =>
    intro acc c hc
    simp only [acceptStructured] at hc
    by_cases hok :
        (v.truthy && truthyOpt (getField v "title") && truthyOpt (getField v "content")) = true
    · rw [if_pos hok] at hc
      have hprops := hok
      simp only [Bool.and_eq_true] at hprops
      by_cases hfull : need ≤ (acc ++ [mkStructCand age v]).length
      · rw [if_pos hfull] at hc
        rcases List.mem_append.mp hc with h | h
        · exact Or.inl h
        · rcases List.mem_singleton.mp h with rfl
          exact Or.inr ⟨v, List.mem_cons_self _ _, hprops.1.1, hprops.1.2, hprops.2, rfl⟩
      · rw [if_neg hfull] at hc
        rcases ih _ c hc with h | ⟨w, hw, h1, h2, h3, h4⟩
        · rcases List.mem_append.mp h with h | h
          · exact Or.inl h
          · rcases List.mem_singleton.mp h with rfl
            exact Or.inr ⟨v, List.mem_cons_self _ _, hprops.1.1, hprops.1.2, hprops.2, rfl⟩
        · exact Or.inr ⟨w, List.mem_cons_of_mem _ hw, h1, h2, h3, h4⟩
    · rw [if_neg hok] at hc
      rcases ih acc c hc with h | ⟨w, hw, h1, h2, h3, h4⟩
      · exact Or.inl h
      · exact Or.inr ⟨w, List.mem_cons_of_mem _ hw, h1, h2, h3, h4⟩

/-- Every candidate of either tier satisfies `P` when both constructors
guarantee it. -/
theorem buildCandidates_forall (P : Candidate → Prop) (text name : String)
    (age : Int) (n : Nat)
    (hmkL : ∀ l parts k, P (mkLineCandidate name age l parts k))
    (hmkS : ∀ v, P (mkStructCand age v)) :
    ∀ c ∈ buildCandidates text name age n, P c := by
  intro c hc
  by_cases htext : (text != "") = true
  · cases hex : extractJsonArray text with
    | none =>
      simp only [buildCandidates, htext, hex, if_true] at hc
      exact parseGeneratedText_forall P text name age n hmkL c ((List.take_sublist _ _).mem hc)
    | some arr =>
      simp only [buildCandidates, htext, hex, if_true] at hc
      by_cases hne : (acceptStructured age n arr [] != []) = true
      · rw [if_pos hne] at hc
        rcases acceptStructured_forall age n arr [] c hc with h | ⟨v, _, _, _, _, rfl⟩
        · simp at h
        · exact hmkS v
      · rw [if_neg hne] at hc
        exact parseGeneratedText_forall P text name age n hmkL c ((List.take_sublist _ _).mem hc)
  · simp [buildCandidates, htext] at hc

theorem mkLineCandidate_content_ne (name : String) (age : Int) (l : String)
    (parts : List String) (k : Nat) : (mkLineCandidate name age l parts k).content ≠ "" := by
  show (if strTrim (joinSep " - " (parts.drop 2)) = "" then
      "Once upon a time, " ++ name ++ " discovered something magical..."
    else strTrim (joinSep " - " (parts.drop 2))) ≠ ""
  by_cases h : strTrim (joinSep " - " (parts.drop 2)) = ""
  · rw [if_pos h]
    intro hcontra
    have hdata := congrArg String.data hcontra
    rw [String.data_append, String.data_append] at hdata
    exact List.append_ne_nil_of_left_ne_nil
      (List.append_ne_nil_of_left_ne_nil (by decide) _) _ hdata
  · rw [if_neg h]
    exact h

/-- C4 (amended): the two-tier parser is a total function — malformed
input yields a shorter (possibly empty) result, never an error — and
returns at most `n` candidates for every requested `n ≥ 1`; the fallback
line tier alone returns at most `n` for every `n`, including 0.  A
failure to parse the structured bracketed span (missing brackets, an
unparseable span, or a parse result that is not an array) falls through
to the line-based fallback rather than raising; and the claim's garbage
input (no structured markers, no recognizable separators) yields the
empty list. -/
theorem outputParser_total_and_bounded :
    (∀ (text name : String) (age : Int) (n : Nat), 1 ≤ n →
      (buildCandidates text name age n).length ≤ n) ∧
    (∀ (text name : String) (age : Int) (n : Nat),
      (parseGeneratedText text name age n).length ≤ n) ∧
    (∀ (text name : String) (age : Int) (n : Nat), extractJsonArray text = none →
      buildCandidates text name age n = (parseGeneratedText text name age n).take n) ∧
    buildCandidates "garbage with no structured markers and no recognizable separators"
      "x" 5 3 = [] := by
  refine ⟨fun text name age n h => buildCandidates_length text name age n h,
    fun text name age n => parseGeneratedText_length text name age n,
    fun text name age n hex => ?_, by decide⟩
  by_cases htext : (text != "") = true
  · simp [buildCandidates, htext, hex]
  · have htext' : text = "" := by simpa using htext
    subst htext'
    have hlines : ((strSplitOn "" "\n").map strTrim).filter (fun s => s != "") =
        ([] : List String) := by decide
    simp [buildCandidates, parseGeneratedText, hlines, parseLines]

theorem outputParser_total_and_bounded_witness :
    (buildCandidates "plain text, no markers" "x" 5 1).length ≤ 1 ∧
    extractJsonArray "plain text, no markers" = none ∧
    buildCandidates "plain text, no markers" "x" 5 1 =
      (parseGeneratedText "plain text, no markers" "x" 5 1).take 1 := by
  have hnone : extractJsonArray "plain text, no markers" = none :=
    Option.isNone_iff_eq_none.mp (by decide)
  exact ⟨outputParser_total_and_bounded.1 "plain text, no markers" "x" 5 1 (by decide),
    hnone, outputParser_total_and_bounded.2.2.1 "plain text, no markers" "x" 5 1 hnone⟩

/-- C4 (counterexample): at requested count `N = 0` the structured tier
still accepts one candidate — its `length >= need` break test runs only
after a push — so on this input the parser returns one candidate where
the claim as stated allows at most zero. -/
theorem outputParser_bound_cex :
    (buildCandidates "[\x7b\"title\":\"a\",\"content\":\"b\"\x7d]" "x" 5 0).length = 1 ∧
    ¬ (buildCandidates "[\x7b\"title\":\"a\",\"content\":\"b\"\x7d]" "x" 5 0).length ≤ 0 := by
  decide

/-- C6: every candidate of either tier carries the derived age range
`{min: max(2, childAge-2), max: min(12, childAge+2)}`; for age 5 that is
`{3, 7}`, and for age 1 the minimum clamps to 2. -/
theorem ageRange_derived :
    (∀ (text name : String) (age : Int) (n : Nat) (c : Candidate),
      c ∈ buildCandidates text name age n →
        c.ageMin = max 2 (age - 2) ∧ c.ageMax = min 12 (age + 2)) ∧
    (∀ (text name : String) (n : Nat) (c : Candidate),
      c ∈ buildCandidates text name 5 n → c.ageMin = 3 ∧ c.ageMax = 7) ∧
    (∀ (text name : String) (n : Nat) (c : Candidate),
      c ∈ buildCandidates text name 1 n → c.ageMin = 2) := by
  have hmain : ∀ (text name : String) (age : Int) (n : Nat) (c : Candidate),
      c ∈ buildCandidates text name age n →
        c.ageMin = max 2 (age - 2) ∧ c.ageMax = min 12 (age + 2) := by
    intro text name age n
    exact buildCandidates_forall
      (fun c => c.ageMin = max 2 (age - 2) ∧ c.ageMax = min 12 (age + 2))
      text name age n (fun l parts k => ⟨rfl, rfl⟩) (fun v => ⟨rfl, rfl⟩)
  refine ⟨hmain, fun text name n c hc => ?_, fun text name n c hc => ?_⟩
  · have := hmain text name 5 n c hc
    simpa using this
  · have := (hmain text name 1 n c hc).1
    simpa using this

theorem ageRange_derived_witness :
    (parseGeneratedText "A - B - C" "x" 5 3).headD default ∈ buildCandidates "A - B - C" "x" 5 3 ∧
    ((parseGeneratedText "A - B - C" "x" 5 3).headD default).ageMin = 3 ∧
    ((parseGeneratedText "A - B - C" "x" 5 3).headD default).ageMax = 7 := by
  have hmem : (parseGeneratedText "A - B - C" "x" 5 3).headD default ∈
      buildCandidates "A - B - C" "x" 5 3 := by decide
  have h := ageRange_derived.2.1 "A - B - C" "x" 3 _ hmem
  exact ⟨hmem, h.1, h.2⟩

/-- C10 (counterexample): structured mode accepts an object whose
`content` is a truthy whitespace-only string; trimming then leaves an
empty content body, so not every produced candidate has non-empty
content. -/
theorem parser_nonempty_content_cex :
    (buildCandidates "[\x7b\"title\":\"T\",\"content\":\"   \"\x7d]" "x" 5 1).map
      (fun c => c.content) = [""] := by decide

/-- C10 (amended): every fallback-tier candidate has a non-empty content
body (the default body is substituted when the rejoined segments are
empty), and every structured-tier candidate arises from an object with a
truthy `title` and `content` — objects lacking them are rejected — though
a truthy whitespace-only `content` can still trim to the empty string. -/
theorem parser_content_policy :
    (∀ (text name : String) (age : Int) (n : Nat) (c : Candidate),
      c ∈ parseGeneratedText text name age n → c.content ≠ "") ∧
    (∀ (age : Int) (need : Nat) (arr : List JsVal) (c : Candidate),
      c ∈ acceptStructured age need arr [] →
        ∃ v ∈ arr, v.truthy = true ∧ truthyOpt (getField v "title") = true ∧
          truthyOpt (getField v "content") = true ∧ c = mkStructCand age v) := by
  constructor
  · intro text name age n
    exact parseGeneratedText_forall (fun c => c.content ≠ "") text name age n
      (fun l parts k => mkLineCandidate_content_ne name age l parts k)
  · intro age need arr c hc
    rcases acceptStructured_forall age need arr [] c hc with h | h
    · simp at h
    · exact h

theorem parser_content_policy_witness :
    ((parseGeneratedText "A - B - C" "x" 5 3).headD default ∈
        parseGeneratedText "A - B - C" "x" 5 3 ∧
      ((parseGeneratedText "A - B - C" "x" 5 3).headD default).content ≠ "") ∧
    ∃ v ∈ [JsVal.obj (.cons "title" (.str "T") (.cons "content" (.str "B") .nil))],
      v.truthy = true ∧ truthyOpt (getField v "title") = true ∧
        truthyOpt (getField v "content") = true ∧
        (acceptStructured 5 1 [JsVal.obj (.cons "title" (.str "T")
          (.cons "content" (.str "B") .nil))] []).headD default = mkStructCand 5 v := by
  constructor
  · have hmem : (parseGeneratedText "A - B - C" "x" 5 3).headD default ∈
        parseGeneratedText "A - B - C" "x" 5 3 := by decide
    exact ⟨hmem, parser_content_policy.1 "A - B - C" "x" 5 3 _ hmem⟩
  · have hmem : (acceptStructured 5 1 [JsVal.obj (.cons "title" (.str "T")
        (.cons "content" (.str "B") .nil))] []).headD default ∈
        acceptStructured 5 1 [JsVal.obj (.cons "title" (.str "T")
          (.cons "content" (.str "B") .nil))] [] := by decide
    exact parser_content_policy.2 5 1 _ _ hmem

/-! ## C5: separator cascade and duration extraction. -/

/-- First-match-wins reading of a separator cascade. -/
def firstAtLeast3 : List (List String) → Option (List String)
  | [] => none
  | p :: ps => if p.length < 3 then firstAtLeast3 ps else some p

theorem firstAtLeast3_eq_find? (ps : List (List String)) :
    firstAtLeast3 ps = ps.find? (fun p => 3 ≤ p.length) := by
  induction ps with
  | nil => rfl
  | cons p ps ih =>
    by_cases h : p.length < 3
    · rw [firstAtLeast3, if_pos h, ih, List.find?_cons_of_neg]
      simpa using h
    · rw [firstAtLeast3, if_neg h, List.find?_cons_of_pos]
      simpa using Nat.le_of_not_lt h

theorem chooseParts_eq_firstAtLeast3 (l : String) :
    chooseParts l = firstAtLeast3 [strSplitOn l " - ", strSplitOn l " — ",
      strSplitOn l " – ", strSplitOn l ":", strSplitOn l " | "] := by
  by_cases h1 : (strSplitOn l " - ").length < 3 <;>
    by_cases h2 : (strSplitOn l " — ").length < 3 <;>
    by_cases h3 : (strSplitOn l " – ").length < 3 <;>
    by_cases h4 : (strSplitOn l ":").length < 3 <;>
    by_cases h5 : (strSplitOn l " | ").length < 3 <;>
    simp [chooseParts, firstAtLeast3, h1, h2, h3, h4, h5]

theorem parseLines_of_full (name : String) (age : Int) (cnt : Nat) :
    ∀ (ls : List String) (acc : List Candidate), cnt ≤ acc.length →
      parseLines name age cnt ls acc = acc := by
  intro ls
  cases ls with
  | nil => intro acc _; rfl
  | cons l ls => intro acc h; simp [parseLines, h]

/-- C5: the fallback line parser tries the separators `" - "`, `" — "`,
`" – "`, `":"`, `" | "` in exactly that order, keeping the first split
with at least 3 segments and skipping lines where none succeeds; the
duration is the first case-insensitive 1-2-digit `min` pattern in the
line, clamped to `[5, 20]`, defaulting to 8 when absent — so the claim's
example line yields 12, and a line without the pattern yields 8. -/
theorem fallback_split_and_duration :
    (∀ l : String, chooseParts l =
      ([strSplitOn l " - ", strSplitOn l " — ", strSplitOn l " – ",
        strSplitOn l ":", strSplitOn l " | "].find? (fun parts => 3 ≤ parts.length))) ∧
    ((parseGeneratedText "Brave Fox - A tale of courage - Once there was... - 12 min"
        "x" 5 3).map (fun c => c.duration) = [12]) ∧
    ((parseGeneratedText "Brave Fox - A tale of courage - Once there was"
        "x" 5 3).map (fun c => c.duration) = [8]) ∧
    (∀ (name : String) (age : Int) (l : String) (parts : List String) (k : Nat),
      (mkLineCandidate name age l parts k).duration =
        (match findDur l with
         | some d => min 20 (max 5 (d : Int))
         | none => 8)) ∧
    (∀ (name : String) (age : Int) (l : String) (parts : List String) (k : Nat),
      5 ≤ (mkLineCandidate name age l parts k).duration ∧
        (mkLineCandidate name age l parts k).duration ≤ 20) ∧
    (∀ (name : String) (age : Int) (cnt : Nat) (l : String) (ls : List String)
        (acc : List Candidate), chooseParts l = none →
      parseLines name age cnt (l :: ls) acc = parseLines name age cnt ls acc) := by
  refine ⟨fun l => (chooseParts_eq_firstAtLeast3 l).trans (firstAtLeast3_eq_find? _),
    by decide, by decide, fun name age l parts k => rfl, ?_, ?_⟩
  · intro name age l parts k
    have hd : (mkLineCandidate name age l parts k).duration =
        (match findDur l with
         | some d => min 20 (max 5 (d : Int))
         | none => (8 : Int)) := rfl
    rw [hd]
    cases findDur l with
    | none => norm_num
    | some d => exact ⟨le_min (by norm_num) (le_max_left _ _), min_le_left _ _⟩
  · intro name age cnt l ls acc hl
    by_cases h : cnt ≤ acc.length
    · rw [parseLines_of_full name age cnt (l :: ls) acc h,
        parseLines_of_full name age cnt ls acc h]
    · simp [parseLines, h, hl]

theorem fallback_split_and_duration_witness :
    chooseParts "no separators here" = none ∧
    parseLines "x" 5 3 ["no separators here", "A - B - C"] [] =
      parseLines "x" 5 3 ["A - B - C"] [] := by
  have hl : chooseParts "no separators here" = none :=
    Option.isNone_iff_eq_none.mp (by decide)
  exact ⟨hl, fallback_split_and_duration.2.2.2.2.2 "x" 5 3 "no separators here"
    ["A - B - C"] [] hl⟩

/-! ## Engine lemmas. -/

/-- Titles of records that the duplicate check of the save loop guards
against: active records of the collection (any provenance). -/
def activeTitles (key : String) (s : Store) : List String :=
  (s.filter (fun r => r.isActive && r.generatedForCollection = some key)).map
    (fun r => r.title)

theorem mem_activeTitles {key : String} {s : Store} {t : String} :
    t ∈ activeTitles key s ↔
      ∃ r ∈ s, r.isActive = true ∧ r.generatedForCollection = some key ∧ r.title = t := by
  simp only [activeTitles, List.mem_map, List.mem_filter, Bool.and_eq_true,
    decide_eq_true_eq]
  constructor
  · rintro ⟨r, ⟨hr, ha, hc⟩, ht⟩; exact ⟨r, hr, ha, hc, ht⟩
  · rintro ⟨r, hr, ha, hc, ht⟩; exact ⟨r, ⟨hr, ha, hc⟩, ht⟩

theorem dupCheck_iff (s : Store) (t key : String) :
    (s.any (fun r => r.title = t && r.generatedForCollection = some key && r.isActive))
        = true ↔ t ∈ activeTitles key s := by
  simp only [List.any_eq_true, Bool.and_eq_true, decide_eq_true_eq, mem_activeTitles]
  constructor
  · rintro ⟨r, hr, ⟨ht, hc⟩, ha⟩; exact ⟨r, hr, ha, hc, ht⟩
  · rintro ⟨r, hr, ha, hc, ht⟩; exact ⟨r, hr, ⟨ht, hc⟩, ha⟩

theorem activeTitles_append (key : String) (s t : Store) :
    activeTitles key (s ++ t) = activeTitles key s ++ activeTitles key t := by
  simp [activeTitles, List.filter_append]

/-- Frame/order/provenance property of the save loop: it only appends
documents, the returned list is exactly what was appended, the appended
titles form an order-preserving subsequence of the candidate titles, and
every appended record is an active AI record of the collection. -/
theorem saveLoop_spec (cfg : GenConfig) (orc : GenOracle) (cat : CategoryInfo)
    (key : String) :
    ∀ (cs : List Candidate) (i : Nat) (s : Store) (saved : List Story) (tts : Nat),
      ∃ (d : List Story) (n : Nat),
        saveLoop cfg orc cat key cs i s saved tts = (s ++ d, saved ++ d, tts + n) ∧
        List.Sublist (d.map (fun r => r.title)) (cs.map (fun c => c.title)) ∧
        ∀ r ∈ d, r.isActive = true ∧ r.isAIGenerated = true ∧
          r.generatedForCollection = some key := by
  intro cs
  induction cs with
  | nil =>
    intro i s saved tts
    exact ⟨[], 0, by simp [saveLoop], by simp, by simp⟩
  | cons c cs ih =>
    intro i s saved tts
    simp only [saveLoop]
    split
    · obtain ⟨d, n, heq, hsub, hall⟩ := ih (i + 1) s saved tts
      exact ⟨d, n, heq, hsub.cons _, hall⟩
    · rcases haud : audioDecision cfg orc i s (mkStoryData cat key c) with ⟨au, ap, ttsInc⟩
      by_cases hcf : orc.createFails i = true
      · rw [if_pos hcf]
        obtain ⟨d, n, heq, hsub, hall⟩ := ih (i + 1) s saved (tts + ttsInc)
        exact ⟨d, ttsInc + n, by rw [heq, Nat.add_assoc], hsub.cons _, hall⟩
      · rw [if_neg hcf]
        obtain ⟨d, n, heq, hsub, hall⟩ := ih (i + 1)
          (s ++ [{ mkStoryData cat key c with audioUrl := au, audioPending := ap }])
          (saved ++ [{ mkStoryData cat key c with audioUrl := au, audioPending := ap }])
          (tts + ttsInc)
        refine ⟨{ mkStoryData cat key c with audioUrl := au, audioPending := ap } :: d,
          ttsInc + n, ?_, ?_, ?_⟩
        · rw [heq, Nat.add_assoc]
          simp [List.append_assoc]
        · exact hsub.cons₂ _
        · intro r hr
          rcases List.mem_cons.mp hr with rfl | hr
          · exact ⟨rfl, rfl, rfl⟩
          · exact hall r hr

/-- The save loop preserves uniqueness of active titles within the
collection: the duplicate check runs against the live store (which
includes this call's own earlier inserts). -/
theorem saveLoop_nodup (cfg : GenConfig) (orc : GenOracle) (cat : CategoryInfo)
    (key : String) :
    ∀ (cs : List Candidate) (i : Nat) (s : Store) (saved : List Story) (tts : Nat),
      (activeTitles key s).Nodup →
      (activeTitles key (saveLoop cfg orc cat key cs i s saved tts).1).Nodup := by
  intro cs
  induction cs with
  | nil => intro i s saved tts h; simpa [saveLoop] using h
  | cons c cs ih =>
    intro i s saved tts h
    simp only [saveLoop]
    split
    · exact ih _ _ _ _ h
    · rename_i hdup
      rcases haud : audioDecision cfg orc i s (mkStoryData cat key c) with ⟨au, ap, ttsInc⟩
      by_cases hcf : orc.createFails i = true
      · rw [if_pos hcf]; exact ih _ _ _ _ h
      · rw [if_neg hcf]
        apply ih
        rw [activeTitles_append]
        have hdoc : activeTitles key
            [{ mkStoryData cat key c with audioUrl := au, audioPending := ap }] =
            [(mkStoryData cat key c).title] := by
          simp [activeTitles, mkStoryData]
        rw [hdoc, List.nodup_append]
        refine ⟨h, List.nodup_singleton _, ?_⟩
        intro a ha hb
        rcases List.mem_singleton.mp hb with rfl
        exact hdup ((dupCheck_iff s (mkStoryData cat key c).title key).mpr ha)

/-- Master characterisation of a successful `generateCategoryStories`
call: the final store is the re-check snapshot plus exactly the returned
records; the returned titles are an order-preserving subsequence of the
front of the candidate list truncated to the re-checked shortfall; every
returned record is an active AI record of the collection; uniqueness of
active titles is preserved; a satisfied target at either count yields the
empty result (with no provider calls at all when the first count is
already satisfied); and the number of saved records never exceeds the
first shortfall. -/
theorem generateCategoryStories_ok (cfg : GenConfig) (orc : GenOracle)
    (key name : String) (age target : Int) (s0 s1 : Store) (out : GenOut)
    (hout : generateCategoryStories cfg orc key name age target s0 s1 = .ok out) :
    out.store = s1 ++ out.saved ∧
    List.Sublist (out.saved.map (fun r => r.title))
      (((buildCandidates
          (if cfg.openaiKey then generateWithOpenAI cfg.openaiKey orc.genOutcome else "")
          name age (max 0 (target - (countActive key s0 : Int))).toNat).take
        (max 0 (target - (countActive key s1 : Int))).toNat).map (fun c => c.title)) ∧
    (∀ r ∈ out.saved, r.isActive = true ∧ r.isAIGenerated = true ∧
      r.generatedForCollection = some key) ∧
    ((activeTitles key s1).Nodup → (activeTitles key out.store).Nodup) ∧
    (target ≤ (countActive key s0 : Int) → out = ⟨[], s1, false, 0⟩) ∧
    (target ≤ (countActive key s1 : Int) → out.saved = []) ∧
    out.saved.length ≤ (max 0 (target - (countActive key s0 : Int))).toNat := by
  have hai : (if cfg.openaiKey then generateWithOpenAI cfg.openaiKey orc.genOutcome else "") =
      generateWithOpenAI cfg.openaiKey orc.genOutcome := by
    cases hk : cfg.openaiKey
    · simp [generateWithOpenAI, hk]
    · simp [hk]
  rw [hai]
  unfold generateCategoryStories at hout
  cases hcat : STORY_CATEGORIES key with
  | none => rw [hcat] at hout; simp at hout
  | some cat =>
    rw [hcat] at hout
    dsimp only at hout
    rw [hai] at hout
    split at hout
    · rename_i h1
      obtain rfl : (⟨[], s1, false, 0⟩ : GenOut) = out := by simpa using hout
      exact ⟨by simp, by simp, by simp, fun h => by simpa using h,
        fun _ => rfl, fun _ => rfl, by simp⟩
    · rename_i h1
      split at hout
      · rename_i h2
        obtain rfl : (⟨[], s1, cfg.openaiKey, 0⟩ : GenOut) = out := by simpa using hout
        refine ⟨by simp, by simp, by simp, fun h => by simpa using h,
          fun h => absurd (by omega : max 0 (target - (countActive key s0 : Int)) ≤ 0) h1,
          fun _ => rfl, by simp⟩
      · rename_i h2
        split at hout
        · rename_i h3
          obtain rfl : (⟨[], s1, cfg.openaiKey, 0⟩ : GenOut) = out := by simpa using hout
          refine ⟨by simp, by simp, by simp, fun h => by simpa using h,
            fun h => absurd (by omega : max 0 (target - (countActive key s0 : Int)) ≤ 0) h1,
            fun _ => rfl, by simp⟩
        · rename_i h3
          obtain ⟨d, n, hsl, hsub, hall⟩ := saveLoop_spec cfg orc cat key
            ((buildCandidates (generateWithOpenAI cfg.openaiKey orc.genOutcome)
              name age (max 0 (target - (countActive key s0 : Int))).toNat).take
              (max 0 (target - (countActive key s1 : Int))).toNat) 0 s1 [] 0
          rw [hsl] at hout
          dsimp only at hout
          obtain rfl : (⟨[] ++ d, s1 ++ d, cfg.openaiKey, 0 + n⟩ : GenOut) = out := by
            simpa using hout
          have hnodup : (activeTitles key s1).Nodup →
              (activeTitles key ((⟨[] ++ d, s1 ++ d, cfg.openaiKey, 0 + n⟩ : GenOut)).store).Nodup := by
            intro h
            have hn := saveLoop_nodup cfg orc cat key
              ((buildCandidates (generateWithOpenAI cfg.openaiKey orc.genOutcome)
                name age (max 0 (target - (countActive key s0 : Int))).toNat).take
                (max 0 (target - (countActive key s1 : Int))).toNat) 0 s1 [] 0 h
            rw [hsl] at hn
            exact hn
          have hlen : d.length ≤ (max 0 (target - (countActive key s0 : Int))).toNat := by
            have hone : 1 ≤ (max 0 (target - (countActive key s0 : Int))).toNat := by omega
            have hcand := buildCandidates_length
              (generateWithOpenAI cfg.openaiKey orc.genOutcome)
              name age (max 0 (target - (countActive key s0 : Int))).toNat hone
            have h4 : d.length ≤ ((buildCandidates
                (generateWithOpenAI cfg.openaiKey orc.genOutcome)
                name age (max 0 (target - (countActive key s0 : Int))).toNat).take
                (max 0 (target - (countActive key s1 : Int))).toNat).length := by
              simpa using hsub.length_le
            have h5 : ((buildCandidates
                (generateWithOpenAI cfg.openaiKey orc.genOutcome)
                name age (max 0 (target - (countActive key s0 : Int))).toNat).take
                (max 0 (target - (countActive key s1 : Int))).toNat).length ≤
              (buildCandidates (generateWithOpenAI cfg.openaiKey orc.genOutcome)
                name age (max 0 (target - (countActive key s0 : Int))).toNat).length := by
              rw [List.length_take]
              exact Nat.min_le_right _ _
            exact le_trans h4 (le_trans h5 hcand)
          refine ⟨by simp, by simpa using hsub, by simpa using hall, hnodup,
            fun h => absurd (by omega : max 0 (target - (countActive key s0 : Int)) ≤ 0) h1,
            fun h => absurd (by omega : max 0 (target - (countActive key s1 : Int)) ≤ 0) h3,
            by simpa using hlen⟩

theorem countActive_append (key : String) (s t : Store) :
    countActive key (s ++ t) = countActive key s + countActive key t := by
  simp [countActive, List.filter_append]

theorem except_eq_ok_of_toOption {ε α : Type} (e : Except ε α) (a : α)
    (h : e.toOption = some a) : e = .ok a := by
  cases e with
  | error _ => simp [Except.toOption] at h
  | ok b => simpa [Except.toOption] using congrArg (Except.ok (ε := ε)) h

/-! ## Witness fixtures: one concrete run of the engine. -/

def cfgW : GenConfig := ⟨true, false, false⟩

def orcW : GenOracle :=
  ⟨.ok [⟨some "[\x7b\"title\":\"New\",\"content\":\"body\"\x7d]"⟩],
   fun _ => ⟨false, none, fun _ => .error (), .error ()⟩,
   fun _ => false⟩

/-- A pre-existing, hand-authored record in the store. -/
def storyB : Story :=
  ⟨"B", "d", "c", 8, some ⟨3, 7⟩, "family", "audio", false, true, none, "📚",
   none, false, 0, 0⟩

/-- The record the witness run inserts. -/
def docNew : Story :=
  ⟨"New", "", "body", 8, some ⟨3, 7⟩, "learning", "educational", true, true,
   some "learn-stories", "🎓", none, false, 0, 0⟩

/-! ## C1, C2, C3, C9: the replenishment engine. -/

/-- C2: for a known collection key whose active AI count already meets
the target, `replenish` returns the empty list, calls neither the
text-generation nor the speech-synthesis provider, and writes nothing. -/
theorem replenish_noop_when_satisfied (cfg : GenConfig) (orc : GenOracle)
    (key name : String) (age target : Int) (s0 s1 : Store)
    (hcat : (STORY_CATEGORIES key).isSome = true)
    (hsat : target ≤ (countActive key s0 : Int)) :
    generateCategoryStories cfg orc key name age target s0 s1 = .ok ⟨[], s1, false, 0⟩ := by
  unfold generateCategoryStories
  cases h : STORY_CATEGORIES key with
  | none => rw [h] at hcat; simp at hcat
  | some cat =>
    dsimp only
    rw [if_pos (by omega : max 0 (target - (countActive key s0 : Int)) ≤ 0)]

theorem replenish_noop_when_satisfied_witness :
    (STORY_CATEGORIES "learn-stories").isSome = true ∧
    (1 : Int) ≤ (countActive "learn-stories" [docNew] : Int) ∧
    generateCategoryStories cfgW orcW "learn-stories" "kid" 5 1 [docNew] [docNew] =
      .ok ⟨[], [docNew], false, 0⟩ := by
  exact ⟨by decide, by decide,
    replenish_noop_when_satisfied cfgW orcW "learn-stories" "kid" 5 1 [docNew] [docNew]
      (by decide) (by decide)⟩

/-- C9: `replenish` never mutates, deactivates or deletes a pre-existing
record: on every successful path the final store is the prior snapshot
followed by exactly the returned inserts, so every pre-existing record is
still present, unchanged, in the final store. -/
theorem replenish_frame (cfg : GenConfig) (orc : GenOracle) (key name : String)
    (age target : Int) (s0 s1 : Store) (out : GenOut)
    (hout : generateCategoryStories cfg orc key name age target s0 s1 = .ok out) :
    out.store = s1 ++ out.saved ∧ ∀ r ∈ s1, r ∈ out.store := by
  have h := (generateCategoryStories_ok cfg orc key name age target s0 s1 out hout).1
  exact ⟨h, fun r hr => h ▸ List.mem_append_left _ hr⟩

theorem replenish_frame_witness :
    generateCategoryStories cfgW orcW "learn-stories" "kid" 5 1 [] [storyB] =
      .ok ⟨[docNew], [storyB, docNew], true, 0⟩ ∧
    ([storyB, docNew] : Store) = [storyB] ++ [docNew] ∧ storyB ∈ ([storyB, docNew] : Store) := by
  have hout : generateCategoryStories cfgW orcW "learn-stories" "kid" 5 1 [] [storyB] =
      .ok ⟨[docNew], [storyB, docNew], true, 0⟩ :=
    except_eq_ok_of_toOption _ _ (by decide)
  have h := replenish_frame cfgW orcW "learn-stories" "kid" 5 1 [] [storyB]
    ⟨[docNew], [storyB, docNew], true, 0⟩ hout
  exact ⟨hout, h.1, h.2 storyB (List.mem_cons_self _ _)⟩

/-- C1: with `targetTotal ≥ existingCount`, a successful `replenish`
persists at most `targetTotal - existingCount` new records, only appends
to the store (so the collection's active count never decreases), re-counts
before saving and persists at most `max 0 (targetTotal - latestCount)`
candidates taken in order from the front of the parsed list, and returns
the empty list when the re-checked shortfall is zero. -/
theorem replenish_bounded_and_monotone (cfg : GenConfig) (orc : GenOracle)
    (key name : String) (age target : Int) (s0 s1 : Store) (out : GenOut)
    (hexist : (countActive key s0 : Int) ≤ target)
    (hout : generateCategoryStories cfg orc key name age target s0 s1 = .ok out) :
    ((out.saved.length : Int) ≤ target - (countActive key s0 : Int)) ∧
    out.store = s1 ++ out.saved ∧
    countActive key s1 ≤ countActive key out.store ∧
    ((out.saved.length : Int) ≤ max 0 (target - (countActive key s1 : Int))) ∧
    (target ≤ (countActive key s1 : Int) → out.saved = []) ∧
    List.Sublist (out.saved.map (fun r => r.title))
      (((buildCandidates
          (if cfg.openaiKey then generateWithOpenAI cfg.openaiKey orc.genOutcome else "")
          name age (max 0 (target - (countActive key s0 : Int))).toNat).take
        (max 0 (target - (countActive key s1 : Int))).toNat).map (fun c => c.title)) := by
  obtain ⟨hstore, hsub, hall, hnodup, hnoop0, hnoop1, hlen⟩ :=
    generateCategoryStories_ok cfg orc key name age target s0 s1 out hout
  refine ⟨by omega, hstore, ?_, ?_, hnoop1, hsub⟩
  · rw [hstore, countActive_append]
    exact Nat.le_add_right _ _
  · have h4 : out.saved.length ≤ ((buildCandidates
        (if cfg.openaiKey then generateWithOpenAI cfg.openaiKey orc.genOutcome else "")
        name age (max 0 (target - (countActive key s0 : Int))).toNat).take
        (max 0 (target - (countActive key s1 : Int))).toNat).length := by
      simpa using hsub.length_le
    have h5 := List.length_take_le
      (max 0 (target - (countActive key s1 : Int))).toNat
      (buildCandidates
        (if cfg.openaiKey then generateWithOpenAI cfg.openaiKey orc.genOutcome else "")
        name age (max 0 (target - (countActive key s0 : Int))).toNat)
    omega

theorem replenish_bounded_and_monotone_witness :
    ((countActive "learn-stories" [] : Int) ≤ 1) ∧
    (([docNew].length : Int) ≤ 1 - (countActive "learn-stories" [] : Int)) ∧
    ([storyB, docNew] : Store) = [storyB] ++ [docNew] ∧
    countActive "learn-stories" [storyB] ≤ countActive "learn-stories" [storyB, docNew] := by
  have hout : generateCategoryStories cfgW orcW "learn-stories" "kid" 5 1 [] [storyB] =
      .ok ⟨[docNew], [storyB, docNew], true, 0⟩ :=
    except_eq_ok_of_toOption _ _ (by decide)
  have h := replenish_bounded_and_monotone cfgW orcW "learn-stories" "kid" 5 1 [] [storyB]
    ⟨[docNew], [storyB, docNew], true, 0⟩ (by decide) hout
  exact ⟨by decide, h.1, h.2.1, h.2.2.1⟩

/-- C3: `replenish` preserves uniqueness of active titles within the
collection (each candidate is checked against the live store, including
this call's own earlier inserts, and skipped when an active same-title
record exists), and in particular two successive `replenish` calls with
`targetTotal = 1` leave no two active records sharing a title. -/
theorem replenish_no_duplicate_titles (cfg : GenConfig) (orc : GenOracle)
    (key name : String) (age target : Int) (s0 s1 : Store)
    (hnd : (activeTitles key s1).Nodup) :
    (∀ out : GenOut, generateCategoryStories cfg orc key name age target s0 s1 = .ok out →
      (activeTitles key out.store).Nodup) ∧
    (∀ (out out₂ : GenOut) (cfg₂ : GenConfig) (orc₂ : GenOracle) (name₂ : String)
        (age₂ : Int) (s0₂ : Store),
      generateCategoryStories cfg orc key name age 1 s0 s1 = .ok out →
      generateCategoryStories cfg₂ orc₂ key name₂ age₂ 1 s0₂ out.store = .ok out₂ →
      (activeTitles key out₂.store).Nodup) := by
  constructor
  · intro out hout
    exact (generateCategoryStories_ok cfg orc key name age target s0 s1 out hout).2.2.2.1 hnd
  · intro out out₂ cfg₂ orc₂ name₂ age₂ s0₂ h1 h2
    have hn1 := (generateCategoryStories_ok cfg orc key name age 1 s0 s1 out h1).2.2.2.1 hnd
    exact (generateCategoryStories_ok cfg₂ orc₂ key name₂ age₂ 1 s0₂ out.store out₂ h2).2.2.2.1 hn1

theorem replenish_no_duplicate_titles_witness :
    (activeTitles "learn-stories" ([] : Store)).Nodup ∧
    (activeTitles "learn-stories" [docNew]).Nodup := by
  have hnd : (activeTitles "learn-stories" ([] : Store)).Nodup := by decide
  have h1 : generateCategoryStories cfgW orcW "learn-stories" "kid" 5 1 [] [] =
      .ok ⟨[docNew], [docNew], true, 0⟩ :=
    except_eq_ok_of_toOption _ _ (by decide)
  have h2 : generateCategoryStories cfgW orcW "learn-stories" "kid" 5 1 [docNew] [docNew] =
      .ok ⟨[], [docNew], false, 0⟩ :=
    except_eq_ok_of_toOption _ _ (by decide)
  have := (replenish_no_duplicate_titles cfgW orcW "learn-stories" "kid" 5 1 [] [] hnd).2
    ⟨[docNew], [docNew], true, 0⟩ ⟨[], [docNew], false, 0⟩ cfgW orcW "kid" 5 [docNew] h1 h2
  exact ⟨hnd, this⟩

/-! ## C7: the consumption hooks. -/

/-- C7: on completion of an AI-generated story with a (truthy) collection
key, the `/:id/complete` hook deactivates the record and schedules a
single-item replenishment for that collection, deriving the age from the
stored age-range minimum clamped to at least 3 (5 when no range is
stored); a non-AI record (or one without a collection) only gets its
completion counter incremented and persisted, with nothing scheduled.
The `/:childId/complete/:contentId` hook instead removes the AI record
and schedules a single-item replenishment with the child's name and age;
for other records it persists the incremented counter and schedules
nothing. -/
theorem completion_hook_behavior :
    (∀ (story : Story) (k : String), story.isAIGenerated = true →
      story.generatedForCollection = some k → k ≠ "" →
        (completeStoryHook story).1.isActive = false ∧
        (completeStoryHook story).1.completions = story.completions + 1 ∧
        (completeStoryHook story).2 = some ⟨k, "friend",
          (match story.ageRange with | some r => max 3 r.min | none => 5), 1⟩ ∧
        (∀ r : AgeRange, story.ageRange = some r →
          (match story.ageRange with | some r => max 3 r.min | none => (5 : Int)) =
              max 3 r.min ∧
            (3 : Int) ≤ max 3 r.min)) ∧
    (∀ story : Story, story.isAIGenerated = false ∨ story.generatedForCollection = none →
        (completeStoryHook story).1 = { story with completions := story.completions + 1 } ∧
        (completeStoryHook story).1.isActive = story.isActive ∧
        (completeStoryHook story).2 = none) ∧
    (∀ (story : Story) (k : String) (childName : Option String) (childAge : Option Int),
      story.isAIGenerated = true → story.generatedForCollection = some k → k ≠ "" →
        (childCompleteStoryHook childName childAge story).1 = .removed ∧
        (childCompleteStoryHook childName childAge story).2 = some ⟨k,
          (match childName with | some n => if n = "" then "friend" else n | none => "friend"),
          (match childAge with | some a => if a = 0 then 5 else a | none => 5), 1⟩) ∧
    (∀ (story : Story) (childName : Option String) (childAge : Option Int),
      story.isAIGenerated = false ∨ story.generatedForCollection = none →
        (childCompleteStoryHook childName childAge story).1 =
          .savedDoc { story with completions := story.completions + 1 } ∧
        (childCompleteStoryHook childName childAge story).2 = none) := by
  refine ⟨?_, ?_, ?_, ?_⟩
  · intro story k hai hco hk
    refine ⟨?_, ?_, ?_, ?_⟩
    · simp [completeStoryHook, hai, hco, collTruthy, hk]
    · simp [completeStoryHook, hai, hco, collTruthy, hk]
    · simp [completeStoryHook, hai, hco, collTruthy, hk]
    · intro r hr
      exact ⟨by rw [hr], le_max_left _ _⟩
  · intro story hcase
    rcases hcase with h | h <;>
      exact ⟨by simp [completeStoryHook, collTruthy, h],
        by simp [completeStoryHook, collTruthy, h],
        by simp [completeStoryHook, collTruthy, h]⟩
  · intro story k childName childAge hai hco hk
    exact ⟨by simp [childCompleteStoryHook, hai, hco, collTruthy, hk],
      by simp [childCompleteStoryHook, hai, hco, collTruthy, hk]⟩
  · intro story childName childAge hcase
    rcases hcase with h | h <;>
      exact ⟨by simp [childCompleteStoryHook, collTruthy, h],
        by simp [childCompleteStoryHook, collTruthy, h]⟩

theorem completion_hook_behavior_witness :
    ((completeStoryHook docNew).1.isActive = false ∧
      (completeStoryHook docNew).2 = some ⟨"learn-stories", "friend", 3, 1⟩) ∧
    ((completeStoryHook storyB).1 = { storyB with completions := 1 } ∧
      (completeStoryHook storyB).2 = none) ∧
    ((childCompleteStoryHook (some "kid") (some 4) docNew).1 = .removed ∧
      (childCompleteStoryHook (some "kid") (some 4) docNew).2 =
        some ⟨"learn-stories", "kid", 4, 1⟩) := by
  have h1 := completion_hook_behavior.1 docNew "learn-stories" (by decide) (by decide)
    (by decide)
  have h2 := completion_hook_behavior.2.1 storyB (Or.inl (by decide))
  have h3 := completion_hook_behavior.2.2.1 docNew "learn-stories" (some "kid") (some 4)
    (by decide) (by decide) (by decide)
  refine ⟨⟨h1.1, ?_⟩, ⟨by simpa [storyB] using h2.1, h2.2.2⟩, ⟨h3.1, ?_⟩⟩
  · rw [h1.2.2.1]; decide
  · rw [h3.2]; decide

/-! ## C8: the provider gateway. -/

theorem ttsFallback_cases (env : TtsEnv) :
    (ttsFallback env).1 = none ∨
      ∃ v u, env.ttsOutcome v = .ok u ∧ (ttsFallback env).1 = some u := by
  unfold ttsFallback
  cases hvo : env.voicesOutcome with
  | error e => simp
  | ok cands =>
    cases hhd : cands.head? with
    | none => simp [hhd]
    | some extractedId =>
      cases extractedId with
      | none => simp [hhd]
      | some vid =>
        by_cases hvid : vid = ""
        · simp [hhd, hvid]
        · cases hto : env.ttsOutcome vid with
          | error e => simp [hhd, hvid, hto]
          | ok url => exact Or.inr ⟨vid, url, hto, by simp [hhd, hvid, hto]⟩

/-- C8: the text-generation gateway returns the generated text only on a
successful response and the empty string on every failure (missing key,
transport error, malformed/empty response), never raising; the
speech-synthesis gateway returns a URL only from a successful synthesis
call and `null` on every failure, never raising. -/
theorem provider_gateway_failure_contract :
    (∀ outcome : Except Unit (List OpenAIChoice), generateWithOpenAI false outcome = "") ∧
    (∀ hasKey : Bool, generateWithOpenAI hasKey (.error ()) = "") ∧
    (∀ (hasKey : Bool) (outcome : Except Unit (List OpenAIChoice)),
      generateWithOpenAI hasKey outcome = "" ∨
      (hasKey = true ∧ ∃ choices choice t, outcome = .ok choices ∧
        choices.head? = some choice ∧ choice.content = some t ∧
        generateWithOpenAI hasKey outcome = t)) ∧
    (∀ env : TtsEnv, env.hasKey = false → (textToElevenlabsAudio env).1 = none) ∧
    (∀ env : TtsEnv, (textToElevenlabsAudio env).1 = none ∨
      ∃ v u, env.ttsOutcome v = .ok u ∧ (textToElevenlabsAudio env).1 = some u) := by
  refine ⟨fun outcome => rfl, fun hasKey => by cases hasKey <;> rfl, ?_, ?_, ?_⟩
  · intro hasKey outcome
    cases hasKey with
    | false => exact Or.inl rfl
    | true =>
      cases outcome with
      | error _ => exact Or.inl rfl
      | ok choices =>
        cases hhd : choices.head? with
        | none => exact Or.inl (by simp [generateWithOpenAI, hhd])
        | some choice =>
          cases hc : choice.content with
          | none => exact Or.inl (by simp [generateWithOpenAI, hhd, hc])
          | some t =>
            exact Or.inr ⟨rfl, choices, choice, t, rfl, hhd, hc,
              by simp [generateWithOpenAI, hhd, hc]⟩
  · intro env hk
    unfold textToElevenlabsAudio
    simp [hk]
  · intro env
    unfold textToElevenlabsAudio
    cases hk : env.hasKey with
    | false => exact Or.inl rfl
    | true =>
      simp only [hk, Bool.not_true, Bool.false_eq_true, if_false]
      cases hcv : env.configuredVoice with
      | none => simpa using ttsFallback_cases env
      | some v =>
        cases hto : env.ttsOutcome v with
        | error e => simpa [hto] using ttsFallback_cases env
        | ok url => exact Or.inr ⟨v, url, hto, by simp [hto]⟩

theorem provider_gateway_failure_contract_witness :
    generateWithOpenAI false (.ok [⟨some "hello"⟩]) = "" ∧
    (textToElevenlabsAudio ⟨false, none, fun _ => .ok "u", .ok []⟩).1 = none := by
  exact ⟨provider_gateway_failure_contract.1 _,
    provider_gateway_failure_contract.2.2.2.1 _ rfl⟩

end AppBackend
